import Mathlib

/-!
Verification of the NtpSpy server (Go) against its specification.

The embedding below translates the current revision of the program
(the variant with packet validation, geolocation enrichment and
URL-escaped notification text): the functions makeNTPResponse,
getGeoIP, the per-datagram body of startNTPServer, and
processTelegramMessages.  Bytes are naturals below 256; Go machine
integer conversions are modelled by explicit mod operations.
-/

namespace NtpSpy

/-- An instant of time as the Go code observes it: the value of
now.Unix() (seconds since the Unix epoch, int64) and now.Nanosecond()
(sub-second nanoseconds, always in [0, 1e9) in Go). -/
structure Instant where
  unix : Int
  nanosecond : Nat
  deriving DecidableEq, Repr

/-- seconds := uint32(now.Unix() + 2208988800).  The Go conversion to
uint32 keeps the low 32 bits, i.e. the value mod 2^32. -/
def mkSeconds (now : Instant) : Nat :=
  ((now.unix + 2208988800) % 4294967296).toNat

/-- fraction := uint32(now.Nanosecond() / 1000). -/
def mkFraction (now : Instant) : Nat :=
  (now.nanosecond / 1000) % 4294967296

/-- makeNTPResponse from the source: a 48-byte zero buffer with byte 0
set to 0x1c, the big-endian seconds in bytes 40-43 and the big-endian
fraction in bytes 44-47.  byte(x) in Go is x mod 256. -/
def makeNTPResponse (now : Instant) : List Nat :=
  let response := (List.replicate 48 0).set 0 0x1c
  let seconds := mkSeconds now
  let fraction := mkFraction now
  ((((((((response.set 40 ((seconds >>> 24) % 256)).set
    41 ((seconds >>> 16) % 256)).set
    42 ((seconds >>> 8) % 256)).set
    43 (seconds % 256)).set
    44 ((fraction >>> 24) % 256)).set
    45 ((fraction >>> 16) % 256)).set
    46 ((fraction >>> 8) % 256)).set
    47 (fraction % 256))

/-- Big-endian decoding of four bytes into a 32-bit value. -/
def beDecode (b3 b2 b1 b0 : Nat) : Nat :=
  ((b3 * 256 + b2) * 256 + b1) * 256 + b0

/-- The 32-bit seconds value carried by bytes 40-43 of a reply. -/
def secondsField (r : List Nat) : Nat :=
  beDecode (r.getD 40 0) (r.getD 41 0) (r.getD 42 0) (r.getD 43 0)

/-- The 32-bit fraction value carried by bytes 44-47 of a reply. -/
def fractionField (r : List Nat) : Nat :=
  beDecode (r.getD 44 0) (r.getD 45 0) (r.getD 46 0) (r.getD 47 0)

/-- GeoIP record decoded from the lookup service's JSON body. -/
structure GeoIP where
  country : String
  city : String
  asn : String
  isp : String
  deriving DecidableEq, Repr

/-- Typed failure of the geolocation lookup, one constructor per
return-error site of getGeoIP. -/
inductive GeoError where
  | network
  | badStatus (code : Nat)
  | decodeFailed
  deriving DecidableEq, Repr

/-- Outcome of an outbound HTTP GET as getGeoIP observes it: either
the transport call itself fails, or a response arrives with a status
code and a body that does or does not decode into a GeoIP value. -/
inductive HTTPOutcome where
  | netErr
  | resp (status : Nat) (body : Option GeoIP)
  deriving DecidableEq, Repr

/-- getGeoIP from the source: a transport error is returned as is, a
non-200 status becomes an error, a body that fails to decode becomes
an error, otherwise the decoded GeoIP is returned. -/
def getGeoIP : HTTPOutcome → Except GeoError GeoIP
  | .netErr => .error .network
  | .resp status body =>
    if status ≠ 200 then .error (.badStatus status)
    else
      match body with
      | none => .error .decodeFailed
      | some geo => .ok geo

/-- The alert text composed in startNTPServer: on lookup failure the
un-enriched fallback naming the client IP with the
location-unknown marker, on success the enriched five-line text. -/
def composeAlert (ip : String) : Except GeoError GeoIP → String
  | .error _ =>
    "Синхронизация NTP с клиентом: " ++ ip ++ " (геолокация не определена)"
  | .ok geo =>
    "Синхронизация NTP с клиентом: " ++ ip ++
    "\nСтрана: " ++ geo.country ++
    "\nГород: " ++ geo.city ++
    "\nASN: " ++ geo.asn ++
    "\nПровайдер: " ++ geo.isp

/-- Capacity of the notification channel: make(chan string, 100). -/
def queueCapacity : Nat := 100

/-- Non-blocking send on the bounded channel (select with a default
branch): if there is room the message is appended and the offer
succeeds, otherwise the queue is left unchanged and the message is
dropped. -/
def offer (q : List String) (m : String) : List String × Bool :=
  if q.length < queueCapacity then (q ++ [m], true) else (q, false)

/-- Pushing a whole list of messages through offer, in order, with no
consumer running. -/
def pushAll (q : List String) (ms : List String) : List String :=
  ms.foldl (fun acc m => (offer acc m).1) q

/-- What one datagram's handling produces: the reply sent back (if
any), the alert text offered to the queue (if any), the queue after
the offer, and whether the offer dropped the alert. -/
structure HandleResult where
  reply : Option (List Nat)
  alert : Option String
  queue : List String
  alertDropped : Bool
  deriving Repr

/-- The per-datagram body of startNTPServer: n is the byte count
returned by ReadFromUDP, buf the receive buffer contents, ip the
client address, geo the outcome of the geolocation HTTP call, q the
current channel contents.  Only a 48-byte datagram whose byte 0 has
low three bits equal to 3 is served; the reply is built and sent
before the lookup, and the alert is offered non-blockingly. -/
def handleDatagram (now : Instant) (n : Nat) (buf : List Nat) (ip : String)
    (geo : HTTPOutcome) (q : List String) : HandleResult :=
  if n = 48 then
    let mode := buf.headD 0 % 8
    if mode = 3 then
      let response := makeNTPResponse now
      let msg := composeAlert ip (getGeoIP geo)
      let res := offer q msg
      { reply := some response, alert := some msg,
        queue := res.1, alertDropped := !res.2 }
    else
      { reply := none, alert := none, queue := q, alertDropped := false }
  else
    { reply := none, alert := none, queue := q, alertDropped := false }

/-- State of the sync.Pool of receive buffers.  Buffers are
identified by the identity of their backing storage; free lists the
storage currently sitting in the pool, nextId mints identities for
buffers freshly allocated by the pool's New function. -/
structure PoolState where
  free : List Nat
  nextId : Nat
  deriving DecidableEq, Repr

/-- bufPool.Get(): reuse a pooled buffer when one is available,
otherwise allocate a fresh one via New. -/
def poolGet (p : PoolState) : Nat × PoolState :=
  match p.free with
  | [] => (p.nextId, { free := [], nextId := p.nextId + 1 })
  | b :: rest => (b, { free := rest, nextId := p.nextId })

/-- bufPool.Put(&buf): the very storage that was checked out goes
back into the pool. -/
def poolPut (b : Nat) (p : PoolState) : PoolState :=
  { free := b :: p.free, nextId := p.nextId }

/-- Well-formedness of the pool: no storage appears twice in the free
list, and every pooled identity was minted earlier. -/
def PoolWF (p : PoolState) : Prop :=
  p.free.Nodup ∧ ∀ b ∈ p.free, b < p.nextId

/-- What one receive attempt can come back with: a UDP read error, or
n bytes of data from a client together with the outcome of the
geolocation call and of the reply send. -/
inductive ReadOutcome where
  | err
  | ok (n : Nat) (data : List Nat) (ip : String) (geo : HTTPOutcome)
      (sendFailed : Bool)

/-- Result of one iteration of the receive loop. -/
structure IterResult where
  pool : PoolState
  queue : List String
  reply : Option (List Nat)

/-- One pass of the default branch of the receive loop: check a
buffer out of the pool, read; on a read error put the buffer back and
continue, otherwise handle the datagram and put the buffer back at
the end of the iteration.  Malformed datagrams take the same tail
path through handleDatagram. -/
def receiveIteration (now : Instant) (ro : ReadOutcome) (q : List String)
    (p : PoolState) : IterResult :=
  let got := poolGet p
  match ro with
  | .err => { pool := poolPut got.1 got.2, queue := q, reply := none }
  | .ok n data ip geo _ =>
    let h := handleDatagram now n data ip geo q
    { pool := poolPut got.1 got.2, queue := h.queue, reply := h.reply }

/-- Loop phase of the listener and dispatcher state machines. -/
inductive Phase where
  | running
  | stopping
  deriving DecidableEq, Repr

/-- One turn of startNTPServer's for/select: if the cancellation
signal is observed the loop stops and returns, otherwise the default
branch runs one receive iteration and the loop remains running. -/
def listenerStep (cancelled : Bool) (now : Instant) (ro : ReadOutcome)
    (q : List String) (p : PoolState) : Phase × IterResult :=
  if cancelled then (.stopping, { pool := p, queue := q, reply := none })
  else (.running, receiveIteration now ro q p)

/-- Uppercase hexadecimal digit, as Go's "0123456789ABCDEF" table. -/
def upperHex (n : Nat) : Nat :=
  if n < 10 then 48 + n else 55 + n

/-- Go url.shouldEscape for a query component: ASCII letters, digits
and the four marks minus, underscore, dot, tilde stay as they are;
every other byte must be escaped. -/
def shouldEscape (b : Nat) : Bool :=
  !((48 ≤ b && b ≤ 57) || (65 ≤ b && b ≤ 90) || (97 ≤ b && b ≤ 122) ||
    b == 45 || b == 95 || b == 46 || b == 126)

/-- How Go url.QueryEscape rewrites one byte: space becomes a plus
sign, an escapable byte becomes a percent sign followed by two
uppercase hex digits, anything else passes through. -/
def escapeByte (b : Nat) : List Nat :=
  if b = 32 then [43]
  else if shouldEscape b then [37, upperHex (b / 16), upperHex (b % 16)]
  else [b]

/-- Go url.QueryEscape over the UTF-8 bytes of the message. -/
def queryEscape (s : List Nat) : List Nat :=
  s.flatMap escapeByte

/-- Code-point bytes of an ASCII string literal. -/
def ascii (s : String) : List Nat :=
  s.data.map Char.toNat

/-- The URL built in the dispatcher's loop body for one message pulled
from the queue: the message text is passed through url.QueryEscape
before being embedded after the text parameter. -/
def processOneMessage (token chatID msg : List Nat) : List Nat :=
  let text := queryEscape msg
  ascii ("https://api.telegram.org/bot") ++ token ++
    ascii ("/sendMessage?chat_id=") ++ chatID ++
    ascii ("&text=") ++ text

/-- One turn of processTelegramMessages' for/select: the loop returns
only when the cancellation signal is observed; otherwise a message is
pulled, its URL is requested, and whatever the HTTP outcome is (error
or any status) the loop continues. -/
def dispatcherStep (cancelled : Bool) (token chatID msg : List Nat)
    (_delivery : HTTPOutcome) : Phase × Option (List Nat) :=
  if cancelled then (.stopping, none)
  else (.running, some (processOneMessage token chatID msg))

/-- A byte that cannot alter the structure of a query URL: an ASCII
digit or letter, or plus, percent, minus, dot, underscore, tilde. -/
def safeQueryByte (b : Nat) : Prop :=
  (48 ≤ b ∧ b ≤ 57) ∨ (65 ≤ b ∧ b ≤ 90) ∨ (97 ≤ b ∧ b ≤ 122) ∨
    b = 43 ∨ b = 37 ∨ b = 45 ∨ b = 46 ∨ b = 95 ∨ b = 126

/-! Helper lemmas shared by several claims. -/

theorem mkSeconds_lt (now : Instant) : mkSeconds now < 4294967296 := by
  unfold mkSeconds
  have h1 := Int.emod_lt_of_pos (now.unix + 2208988800)
    (by norm_num : (0 : Int) < 4294967296)
  have h2 := Int.emod_nonneg (now.unix + 2208988800)
    (by norm_num : (4294967296 : Int) ≠ 0)
  omega

theorem mkFraction_lt (now : Instant) : mkFraction now < 4294967296 :=
  Nat.mod_lt _ (by norm_num)

theorem beDecode_shift (s : Nat) (h : s < 4294967296) :
    beDecode ((s >>> 24) % 256) ((s >>> 16) % 256) ((s >>> 8) % 256)
      (s % 256) = s := by
  unfold beDecode
  simp only [Nat.shiftRight_eq_div_pow]
  have e24 : (2 : Nat) ^ 24 = 16777216 := by norm_num
  have e16 : (2 : Nat) ^ 16 = 65536 := by norm_num
  have e8 : (2 : Nat) ^ 8 = 256 := by norm_num
  rw [e24, e16, e8]
  omega

theorem secondsField_make (now : Instant) :
    secondsField (makeNTPResponse now) = mkSeconds now := by
  have h : secondsField (makeNTPResponse now) =
      beDecode ((mkSeconds now >>> 24) % 256) ((mkSeconds now >>> 16) % 256)
        ((mkSeconds now >>> 8) % 256) (mkSeconds now % 256) := rfl
  rw [h, beDecode_shift _ (mkSeconds_lt now)]

theorem fractionField_make (now : Instant) :
    fractionField (makeNTPResponse now) = mkFraction now := by
  have h : fractionField (makeNTPResponse now) =
      beDecode ((mkFraction now >>> 24) % 256) ((mkFraction now >>> 16) % 256)
        ((mkFraction now >>> 8) % 256) (mkFraction now % 256) := rfl
  rw [h, beDecode_shift _ (mkFraction_lt now)]

/-- C2: for every timestamp, the codec's reply is exactly 48 bytes,
byte 0 is 0x1C, bytes 1-39 are all zero, bytes 40-43 carry the
big-endian 32-bit seconds value and bytes 44-47 the big-endian 32-bit
fraction derived from sub-second microseconds; the reply is a pure
function of the timestamp, so it is fully determined by it. -/
theorem claim_C2_reply_shape (now : Instant) :
    (makeNTPResponse now).length = 48 ∧
    (makeNTPResponse now).getD 0 0 = 0x1c ∧
    ((makeNTPResponse now).drop 1).take 39 = List.replicate 39 0 ∧
    secondsField (makeNTPResponse now) = mkSeconds now ∧
    fractionField (makeNTPResponse now) = mkFraction now :=
  ⟨rfl, rfl, rfl, secondsField_make now, fractionField_make now⟩

/-- C3 (amended): the seconds value at bytes 40-43 equals
(unix + 2208988800) reduced mod 2^32; it equals unix + 2208988800
exactly whenever that sum lies in [0, 2^32). -/
theorem claim_C3_seconds_mod (now : Instant) :
    ((secondsField (makeNTPResponse now) : Int) =
      (now.unix + 2208988800) % 4294967296) ∧
    (0 ≤ now.unix + 2208988800 → now.unix + 2208988800 < 4294967296 →
      (secondsField (makeNTPResponse now) : Int) = now.unix + 2208988800) := by
  have h : (secondsField (makeNTPResponse now) : Int) =
      (now.unix + 2208988800) % 4294967296 := by
    rw [secondsField_make]
    unfold mkSeconds
    exact Int.toNat_of_nonneg (Int.emod_nonneg _ (by norm_num))
  refine ⟨h, fun h0 hlt => ?_⟩
  rw [h, Int.emod_eq_of_lt h0 hlt]

/-- C3 witness: at the Unix epoch the sum is in range and the encoded
seconds value is exactly 2208988800. -/
theorem claim_C3_witness :
    ((secondsField (makeNTPResponse ⟨0, 0⟩) : Int) =
      (0 + 2208988800) % 4294967296) ∧
    ((secondsField (makeNTPResponse ⟨0, 0⟩) : Int) = 0 + 2208988800) :=
  ⟨(claim_C3_seconds_mod ⟨0, 0⟩).1,
   (claim_C3_seconds_mod ⟨0, 0⟩).2 (by decide) (by decide)⟩

/-- C3 counterexample: at the instant with Unix seconds 2085978496
(February 2036) the sum unix + 2208988800 equals 2^32, and the 32-bit
conversion truncates it to 0, so the encoded seconds value does not
equal the sum. -/
theorem claim_C3_counterexample :
    (secondsField (makeNTPResponse ⟨2085978496, 0⟩) : Int) ≠
      2085978496 + 2208988800 := by decide

/-- C10: when the nanosecond component is in Go's guaranteed range
[0, 1e9), the fraction value is the sub-second microsecond count,
which is below 1,000,000; hence byte 44 of the reply is 0 and byte 45
is at most 0x0F. -/
theorem claim_C10_fraction_bytes (now : Instant)
    (h : now.nanosecond < 1000000000) :
    mkFraction now = now.nanosecond / 1000 ∧
    mkFraction now < 1000000 ∧
    (makeNTPResponse now).getD 44 0 = 0 ∧
    (makeNTPResponse now).getD 45 0 ≤ 15 := by
  have hf : mkFraction now = now.nanosecond / 1000 := by
    unfold mkFraction
    omega
  have hlt : mkFraction now < 1000000 := by
    rw [hf]; omega
  have h44 : (makeNTPResponse now).getD 44 0 = (mkFraction now >>> 24) % 256 := rfl
  have h45 : (makeNTPResponse now).getD 45 0 = (mkFraction now >>> 16) % 256 := rfl
  refine ⟨hf, hlt, ?_, ?_⟩
  · rw [h44, Nat.shiftRight_eq_div_pow]
    have e24 : (2 : Nat) ^ 24 = 16777216 := by norm_num
    rw [e24]
    omega
  · rw [h45, Nat.shiftRight_eq_div_pow]
    have e16 : (2 : Nat) ^ 16 = 65536 := by norm_num
    rw [e16]
    omega

/-- C10 witness at the largest Go nanosecond value. -/
theorem claim_C10_witness :
    mkFraction ⟨0, 999999999⟩ = 999999999 / 1000 ∧
    mkFraction ⟨0, 999999999⟩ < 1000000 ∧
    (makeNTPResponse ⟨0, 999999999⟩).getD 44 0 = 0 ∧
    (makeNTPResponse ⟨0, 999999999⟩).getD 45 0 ≤ 15 :=
  claim_C10_fraction_bytes ⟨0, 999999999⟩ (by decide)

/-- C1: a reply is produced exactly when the datagram is 48 bytes long
and the low 3 bits of its byte 0 equal 3; for every other datagram no
reply is produced, no alert is composed, and the notification queue is
left untouched. -/
theorem claim_C1_reply_iff_valid (now : Instant) (n : Nat) (buf : List Nat)
    (ip : String) (geo : HTTPOutcome) (q : List String) :
    ((handleDatagram now n buf ip geo q).reply.isSome ↔
      (n = 48 ∧ buf.headD 0 % 8 = 3)) ∧
    (¬(n = 48 ∧ buf.headD 0 % 8 = 3) →
      (handleDatagram now n buf ip geo q).reply = none ∧
      (handleDatagram now n buf ip geo q).alert = none ∧
      (handleDatagram now n buf ip geo q).queue = q) := by
  unfold handleDatagram
  simp only [List.headD_eq_head?]
  by_cases hn : n = 48
  · by_cases hm : buf.head?.getD 0 % 8 = 3
    · simp [hn, hm]
    · simp [hn, hm]
  · simp [hn]

/-- C1 witness: a 10-byte datagram gets no reply, composes no alert
and leaves the queue unchanged. -/
theorem claim_C1_witness :
    (handleDatagram ⟨0, 0⟩ 10 (List.replicate 48 27) "1.2.3.4" .netErr []).reply
        = none ∧
    (handleDatagram ⟨0, 0⟩ 10 (List.replicate 48 27) "1.2.3.4" .netErr []).alert
        = none ∧
    (handleDatagram ⟨0, 0⟩ 10 (List.replicate 48 27) "1.2.3.4" .netErr []).queue
        = [] :=
  (claim_C1_reply_iff_valid ⟨0, 0⟩ 10 (List.replicate 48 27) "1.2.3.4"
    .netErr []).2 (by decide)

theorem pushAll_length (ms : List String) :
    ∀ q : List String, q.length ≤ 100 →
      (pushAll q ms).length = min (q.length + ms.length) 100 := by
  induction ms with
  | nil =>
    intro q h
    simp only [pushAll, List.foldl_nil, List.length_nil]
    omega
  | cons m rest ih =>
    intro q h
    have hfold : pushAll q (m :: rest) = pushAll ((offer q m).1) rest := rfl
    rw [hfold]
    by_cases hq : q.length < 100
    · have step : (offer q m).1 = q ++ [m] := by
        simp [offer, queueCapacity, hq]
      rw [step, ih (q ++ [m])
        (by simp only [List.length_append, List.length_cons, List.length_nil]; omega)]
      simp only [List.length_append, List.length_cons, List.length_nil]
      omega
    · have step : (offer q m).1 = q := by
        simp [offer, queueCapacity, hq]
      rw [step, ih q h]
      simp only [List.length_cons]
      omega

/-- C4: the queue never exceeds its capacity of 100, an offer against
a full queue leaves the queue unchanged and reports the drop, and
pushing any batch of messages into an empty queue with no consumer
enqueues exactly min(batch, capacity) of them — so a batch larger
than the capacity results in exactly capacity enqueued messages and
the remainder dropped. -/
theorem claim_C4_queue_bound :
    (∀ (q : List String) (m : String), q.length ≤ queueCapacity →
      ((offer q m).1).length ≤ queueCapacity) ∧
    (∀ (q : List String) (m : String), q.length = queueCapacity →
      (offer q m).1 = q ∧ (offer q m).2 = false) ∧
    (∀ ms : List String,
      (pushAll [] ms).length = min ms.length queueCapacity) ∧
    (∀ ms : List String, queueCapacity ≤ ms.length →
      (pushAll [] ms).length = queueCapacity) := by
  refine ⟨?_, ?_, ?_, ?_⟩
  · intro q m h
    unfold offer
    by_cases hq : q.length < queueCapacity
    · simp only [hq, if_true, List.length_append, List.length_cons,
        List.length_nil]
      unfold queueCapacity at *
      omega
    · simp only [hq, if_false]
      exact h
  · intro q m h
    unfold offer
    simp [h]
  · intro ms
    have hp := pushAll_length ms [] (by simp)
    simp only [List.length_nil, Nat.zero_add] at hp
    simpa [queueCapacity] using hp
  · intro ms h
    have hp := pushAll_length ms [] (by simp)
    simp only [List.length_nil, Nat.zero_add] at hp
    unfold queueCapacity at *
    omega

/-- C4 witness: pushing 101 messages into the empty queue enqueues
exactly 100; an offer against the full result drops. -/
theorem claim_C4_witness :
    (pushAll [] (List.replicate 101 "m")).length = queueCapacity ∧
    (pushAll [] (List.replicate 101 "m")).length =
      min (List.replicate 101 "m").length queueCapacity :=
  ⟨claim_C4_queue_bound.2.2.2 (List.replicate 101 "m") (by decide),
   claim_C4_queue_bound.2.2.1 (List.replicate 101 "m")⟩

/-- C5: every well-formed request (48 bytes, mode 3) is answered with
the codec's reply — 48 bytes whose byte 0 is 0x1C — for every
geolocation outcome (including failure) and every queue content
(including a full queue). -/
theorem claim_C5_always_reply (now : Instant) (n : Nat) (buf : List Nat)
    (ip : String) (geo : HTTPOutcome) (q : List String)
    (hn : n = 48) (hm : buf.headD 0 % 8 = 3) :
    (handleDatagram now n buf ip geo q).reply = some (makeNTPResponse now) ∧
    (makeNTPResponse now).length = 48 ∧
    (makeNTPResponse now).getD 0 0 = 0x1c := by
  refine ⟨?_, rfl, rfl⟩
  unfold handleDatagram
  simp only [List.headD_eq_head?] at hm
  simp [hn, hm]

/-- C5 witness: a mode-3 request is answered even when the
geolocation call fails on the network and the queue is already full. -/
theorem claim_C5_witness :
    (handleDatagram ⟨0, 0⟩ 48 (List.replicate 48 27) "1.2.3.4" .netErr
      (List.replicate 100 "m")).reply = some (makeNTPResponse ⟨0, 0⟩) ∧
    (makeNTPResponse ⟨0, 0⟩).length = 48 ∧
    (makeNTPResponse ⟨0, 0⟩).getD 0 0 = 0x1c :=
  claim_C5_always_reply ⟨0, 0⟩ 48 (List.replicate 48 27) "1.2.3.4" .netErr
    (List.replicate 100 "m") rfl (by decide)

/-- C6: the geolocation lookup fails exactly when the transport call
errors, the status is not 200, or the body does not decode; and for
every served request on which the lookup fails, the alert composed
and offered to the queue still names the client IP followed by the
location-unknown marker. -/
theorem claim_C6_geo_failure :
    ((getGeoIP .netErr).isOk = false) ∧
    (∀ (c : Nat) (b : Option GeoIP),
      (getGeoIP (.resp c b)).isOk = true ↔ (c = 200 ∧ b.isSome = true)) ∧
    (∀ (now : Instant) (buf : List Nat) (ip : String) (q : List String)
        (o : HTTPOutcome), buf.headD 0 % 8 = 3 → (getGeoIP o).isOk = false →
      ∃ m : String, (handleDatagram now 48 buf ip o q).alert = some m ∧
        ∃ s : String, m = s ++ ip ++ " (геолокация не определена)") := by
  refine ⟨rfl, ?_, ?_⟩
  · intro c b
    unfold getGeoIP
    by_cases hc : c = 200
    · cases b with
      | none => simp [hc, Except.isOk, Except.toBool]
      | some g => simp [hc, Except.isOk, Except.toBool]
    · simp [hc, Except.isOk, Except.toBool]
  · intro now buf ip q o hm hfail
    refine ⟨composeAlert ip (getGeoIP o), ?_, ?_⟩
    · unfold handleDatagram
      simp only [List.headD_eq_head?] at hm
      simp [hm]
    · cases hgeo : getGeoIP o with
      | ok g => rw [hgeo] at hfail; simp [Except.isOk, Except.toBool] at hfail
      | error e =>
        exact ⟨"Синхронизация NTP с клиентом: ", rfl⟩

/-- C6 witness: a network failure of the lookup still yields an alert
naming the client IP and the location-unknown marker. -/
theorem claim_C6_witness :
    ∃ m : String,
      (handleDatagram ⟨0, 0⟩ 48 (List.replicate 48 27) "1.2.3.4" .netErr
        []).alert = some m ∧
      ∃ s : String, m = s ++ "1.2.3.4" ++ " (геолокация не определена)" :=
  claim_C6_geo_failure.2.2 ⟨0, 0⟩ (List.replicate 48 27) "1.2.3.4" []
    .netErr (by decide) rfl

theorem upperHex_safe (n : Nat) (h : n < 16) : safeQueryByte (upperHex n) := by
  unfold upperHex safeQueryByte
  by_cases h10 : n < 10
  · simp only [h10, if_true]
    omega
  · simp only [h10, if_false]
    omega

theorem escapeByte_safe (a : Nat) (ha : a < 256) :
    ∀ b ∈ escapeByte a, safeQueryByte b := by
  intro b hb
  unfold escapeByte at hb
  by_cases h32 : a = 32
  · simp [h32] at hb
    subst hb
    unfold safeQueryByte
    omega
  · by_cases hesc : shouldEscape a
    · simp [h32, hesc] at hb
      rcases hb with hb | hb | hb
      · subst hb
        unfold safeQueryByte
        omega
      · subst hb
        exact upperHex_safe _ (by omega)
      · subst hb
        exact upperHex_safe _ (by omega)
    · simp [h32, hesc] at hb
      subst hb
      unfold shouldEscape at hesc
      simp at hesc
      unfold safeQueryByte
      omega

/-- C7: the dispatcher embeds the message into the request URL only
after passing it through the query-escaping function, and every byte
the escaping function emits is structure-safe — an ASCII letter or
digit, or one of plus, percent, minus, dot, underscore, tilde — so no
byte of the escaped text can act as a URL metacharacter. -/
theorem claim_C7_escaped_before_embedding (token chatID msg : List Nat)
    (h : ∀ b ∈ msg, b < 256) :
    processOneMessage token chatID msg =
      ascii ("https://api.telegram.org/bot") ++ token ++
        ascii ("/sendMessage?chat_id=") ++ chatID ++ ascii ("&text=") ++
        queryEscape msg ∧
    ∀ b ∈ queryEscape msg, safeQueryByte b := by
  refine ⟨rfl, ?_⟩
  intro b hb
  unfold queryEscape at hb
  rw [List.mem_flatMap] at hb
  obtain ⟨a, ha, hba⟩ := hb
  exact escapeByte_safe a (h a ha) b hba

/-- C7 witness: the ampersand byte 38 is escaped into percent-two-six,
whose leading byte 37 is structure-safe. -/
theorem claim_C7_witness :
    processOneMessage [] [] [38] =
      ascii ("https://api.telegram.org/bot") ++ [] ++
        ascii ("/sendMessage?chat_id=") ++ [] ++ ascii ("&text=") ++
        queryEscape [38] ∧
    safeQueryByte 37 :=
  ⟨(claim_C7_escaped_before_embedding [] [] [38] (by decide)).1,
   (claim_C7_escaped_before_embedding [] [] [38] (by decide)).2 37 (by decide)⟩

/-- C8: both loops reach the stopping phase exactly when the
cancellation signal is observed; on every per-request event — read
error, malformed datagram, send failure, enrichment failure, full
queue, delivery failure — the uncancelled loop stays running, i.e.
proceeds to its next iteration. -/
theorem claim_C8_loops_stop_only_on_cancel :
    (∀ (cancelled : Bool) (now : Instant) (ro : ReadOutcome)
        (q : List String) (p : PoolState),
      ((listenerStep cancelled now ro q p).1 = Phase.stopping ↔
        cancelled = true) ∧
      (cancelled = false →
        (listenerStep cancelled now ro q p).1 = Phase.running)) ∧
    (∀ (cancelled : Bool) (token chatID msg : List Nat)
        (delivery : HTTPOutcome),
      ((dispatcherStep cancelled token chatID msg delivery).1 = Phase.stopping ↔
        cancelled = true) ∧
      (cancelled = false →
        (dispatcherStep cancelled token chatID msg delivery).1 =
          Phase.running)) := by
  constructor
  · intro cancelled now ro q p
    cases cancelled <;> simp [listenerStep]
  · intro cancelled token chatID msg delivery
    cases cancelled <;> simp [dispatcherStep]

/-- C8 witness: a cancelled listener stops; an uncancelled dispatcher
whose HTTP call failed keeps running. -/
theorem claim_C8_witness :
    (listenerStep true ⟨0, 0⟩ .err [] ⟨[], 0⟩).1 = Phase.stopping ∧
    (dispatcherStep false [] [] [] .netErr).1 = Phase.running :=
  ⟨((claim_C8_loops_stop_only_on_cancel.1 true ⟨0, 0⟩ .err [] ⟨[], 0⟩).1).mpr
      rfl,
   (claim_C8_loops_stop_only_on_cancel.2 false [] [] [] .netErr).2 rfl⟩

/-- C9: every receive iteration checks one buffer out of the pool and,
on every exit path (read error, malformed datagram, success alike),
puts that very buffer — not a copy — back; while it is checked out of
a well-formed pool it does not sit in the pool's free list, so no
concurrent checkout can alias it; and the iteration preserves the
pool's well-formedness. -/
theorem claim_C9_pool_roundtrip (now : Instant) (ro : ReadOutcome)
    (q : List String) (p : PoolState) :
    (receiveIteration now ro q p).pool = poolPut (poolGet p).1 (poolGet p).2 ∧
    (PoolWF p → (poolGet p).1 ∉ (poolGet p).2.free) ∧
    (PoolWF p → PoolWF (receiveIteration now ro q p).pool) := by
  have he : (receiveIteration now ro q p).pool =
      poolPut (poolGet p).1 (poolGet p).2 := by
    cases ro <;> rfl
  refine ⟨he, ?_, ?_⟩
  · intro hwf
    obtain ⟨free, nextId⟩ := p
    cases free with
    | nil => simp [poolGet]
    | cons a rest =>
      simp only [poolGet]
      exact (List.nodup_cons.mp hwf.1).1
  · intro hwf
    rw [he]
    obtain ⟨free, nextId⟩ := p
    obtain ⟨hnd, hbound⟩ := hwf
    cases free with
    | nil =>
      refine ⟨by simp [poolGet, poolPut], ?_⟩
      intro b hb
      simp only [poolGet, poolPut, List.mem_singleton] at hb
      simp only [poolGet, poolPut]
      omega
    | cons a rest =>
      exact ⟨hnd, hbound⟩

/-- C9 witness: with buffer 5 pooled and identities below 6 minted,
the error-path iteration returns exactly buffer 5 and keeps the pool
well-formed. -/
theorem claim_C9_witness :
    (receiveIteration ⟨0, 0⟩ .err [] ⟨[5], 6⟩).pool =
      poolPut (poolGet ⟨[5], 6⟩).1 (poolGet ⟨[5], 6⟩).2 ∧
    (poolGet ⟨[5], 6⟩).1 ∉ (poolGet ⟨[5], 6⟩).2.free ∧
    PoolWF (receiveIteration ⟨0, 0⟩ .err [] ⟨[5], 6⟩).pool := by
  have hwf : PoolWF ⟨[5], 6⟩ := by
    refine ⟨by simp, ?_⟩
    intro b hb
    simp at hb
    subst hb
    decide
  have h := claim_C9_pool_roundtrip ⟨0, 0⟩ .err [] ⟨[5], 6⟩
  exact ⟨h.1, h.2.1 hwf, h.2.2 hwf⟩

end NtpSpy
